import Mathlib

/-!
Verification of the Dogecoin wallet API (`src/lib/doge-api.js`): deterministic
key derivation from a passphrase, unspent-output selection, fee accounting,
transaction-id computation, and the HTTP client cache.

The JavaScript source is shallowly embedded: amounts in whole coins are
rationals (the concrete inputs of interest are exactly representable JS
numbers), amounts in the smallest denomination are integers, `Math.floor`
is `Int.floor`, and byte strings are `List Nat` with each entry below 256.
-/

namespace DogeApi

/-! ## SHA-256 (`bitcoin.crypto.sha256`), per FIPS 180-4 -/

/-- Truncate to a 32-bit word. -/
def w32 (n : Nat) : Nat := n % 4294967296

/-- Right rotation of a 32-bit word. -/
def rotr (n x : Nat) : Nat := w32 ((x >>> n) ||| (x <<< (32 - n)))

def smallSigma0 (x : Nat) : Nat := rotr 7 x ^^^ rotr 18 x ^^^ (x >>> 3)

def smallSigma1 (x : Nat) : Nat := rotr 17 x ^^^ rotr 19 x ^^^ (x >>> 10)

def bigSigma0 (x : Nat) : Nat := rotr 2 x ^^^ rotr 13 x ^^^ rotr 22 x

def bigSigma1 (x : Nat) : Nat := rotr 6 x ^^^ rotr 11 x ^^^ rotr 25 x

def chF (x y z : Nat) : Nat := (x &&& y) ^^^ ((x ^^^ 4294967295) &&& z)

def majF (x y z : Nat) : Nat := (x &&& y) ^^^ (x &&& z) ^^^ (y &&& z)

/-- The 64 SHA-256 round constants, written in decimal. -/
def K256 : List Nat :=
  [1116352408, 1899447441, 3049323471, 3921009573,
   961987163, 1508970993, 2453635748, 2870763221,
   3624381080, 310598401, 607225278, 1426881987,
   1925078388, 2162078206, 2614888103, 3248222580,
   3835390401, 4022224774, 264347078, 604807628,
   770255983, 1249150122, 1555081692, 1996064986,
   2554220882, 2821834349, 2952996808, 3210313671,
   3336571891, 3584528711, 113926993, 338241895,
   666307205, 773529912, 1294757372, 1396182291,
   1695183700, 1986661051, 2177026350, 2456956037,
   2730485921, 2820302411, 3259730800, 3345764771,
   3516065817, 3600352804, 4094571909, 275423344,
   430227734, 506948616, 659060556, 883997877,
   958139571, 1322822218, 1537002063, 1747873779,
   1955562222, 2024104815, 2227730452, 2361852424,
   2428436474, 2756734187, 3204031479, 3329325298]

/-- The eight working variables of the compression function. -/
structure Hash8 where
  a : Nat
  b : Nat
  c : Nat
  d : Nat
  e : Nat
  f : Nat
  g : Nat
  h : Nat

/-- SHA-256 initial hash value, written in decimal. -/
def H0 : Hash8 :=
  ⟨1779033703, 3144134277, 1013904242, 2773480762,
   1359893119, 2600822924, 528734635, 1541459225⟩

/-- Big-endian byte serialization of a number into `k` bytes. -/
def beBytes : Nat → Nat → List Nat
  | 0, _ => []
  | k + 1, n => beBytes k (n / 256) ++ [n % 256]

/-- SHA-256 padding: append 0x80, zero bytes, and the 64-bit message length. -/
def padMessage (msg : List Nat) : List Nat :=
  msg ++ [0x80] ++ List.replicate ((119 - msg.length % 64) % 64) 0
      ++ beBytes 8 (msg.length * 8)

/-- Pack bytes into big-endian 32-bit words. -/
def toWords : List Nat → List Nat
  | a :: b :: c :: d :: rest =>
      ((a <<< 24) ||| (b <<< 16) ||| (c <<< 8) ||| d) :: toWords rest
  | _ => []

/-- Split a word list into 16-word blocks. -/
def toBlocks : List Nat → List (List Nat)
  | w0 :: w1 :: w2 :: w3 :: w4 :: w5 :: w6 :: w7 ::
    w8 :: w9 :: w10 :: w11 :: w12 :: w13 :: w14 :: w15 :: rest =>
      [w0, w1, w2, w3, w4, w5, w6, w7, w8, w9, w10, w11, w12, w13, w14, w15]
        :: toBlocks rest
  | _ => []

/-- Append the next word of the message schedule. -/
def scheduleStep (w : List Nat) : List Nat :=
  let n := w.length
  w ++ [w32 (smallSigma1 (w.getD (n - 2) 0) + w.getD (n - 7) 0
      + smallSigma0 (w.getD (n - 15) 0) + w.getD (n - 16) 0)]

/-- Extend a 16-word block to the 64-word message schedule. -/
def schedule (block : List Nat) : List Nat :=
  (List.range 48).foldl (fun w _ => scheduleStep w) block

/-- One SHA-256 round, consuming a round constant paired with a schedule word. -/
def sha256Round (st : Hash8) (kw : Nat × Nat) : Hash8 :=
  let t1 := w32 (st.h + bigSigma1 st.e + chF st.e st.f st.g + kw.1 + kw.2)
  let t2 := w32 (bigSigma0 st.a + majF st.a st.b st.c)
  ⟨w32 (t1 + t2), st.a, st.b, st.c, w32 (st.d + t1), st.e, st.f, st.g⟩

/-- Compress one 16-word block into the running hash state. -/
def compress (st : Hash8) (block : List Nat) : Hash8 :=
  let r := (K256.zip (schedule block)).foldl sha256Round st
  ⟨w32 (st.a + r.a), w32 (st.b + r.b), w32 (st.c + r.c), w32 (st.d + r.d),
   w32 (st.e + r.e), w32 (st.f + r.f), w32 (st.g + r.g), w32 (st.h + r.h)⟩

/-- Big-endian bytes of a 32-bit word. -/
def wordBytes (x : Nat) : List Nat :=
  [(x >>> 24) % 256, (x >>> 16) % 256, (x >>> 8) % 256, x % 256]

/-- SHA-256 of a byte list. -/
def sha256 (msg : List Nat) : List Nat :=
  let st := (toBlocks (toWords (padMessage msg))).foldl compress H0
  wordBytes st.a ++ wordBytes st.b ++ wordBytes st.c ++ wordBytes st.d ++
  wordBytes st.e ++ wordBytes st.f ++ wordBytes st.g ++ wordBytes st.h

/-! ## Hex encoding and decoding (`Buffer.from(s, 'hex')` / `buf.toString('hex')`) -/

/-- Lowercase hex digit for a value below 16. -/
def hexDigitChar (n : Nat) : Char :=
  "0123456789abcdef".data.getD n '0'

/-- The two lowercase hex characters of one byte. -/
def byteHexChars (b : Nat) : List Char :=
  [hexDigitChar ((b / 16) % 16), hexDigitChar (b % 16)]

/-- Hex encoding of a byte list, as a character list (`buf.toString('hex')`). -/
def hexEncodeChars (bs : List Nat) : List Char :=
  (bs.map byteHexChars).flatten

/-- Hex encoding of a byte list, as a string. -/
def hexEncode (bs : List Nat) : String :=
  String.mk (hexEncodeChars bs)

/-- Chunk a character list into consecutive pairs, dropping a trailing odd
character — the behaviour of the `/.{2}/g` match on the hex string. -/
def chunkPairs : List Char → List (List Char)
  | a :: b :: rest => [a, b] :: chunkPairs rest
  | _ => []

/-- Numeric value of a hex digit, `none` for a non-hex character. -/
def hexCharVal (c : Char) : Option Nat :=
  if '0' ≤ c ∧ c ≤ '9' then some (c.toNat - '0'.toNat)
  else if 'a' ≤ c ∧ c ≤ 'f' then some (c.toNat - 'a'.toNat + 10)
  else if 'A' ≤ c ∧ c ≤ 'F' then some (c.toNat - 'A'.toNat + 10)
  else none

/-- Hex decoding of a character list; like `Buffer.from(s, 'hex')`, decoding
stops at the first invalid pair or lone trailing character. -/
def hexDecodeChars : List Char → List Nat
  | a :: b :: rest =>
    match hexCharVal a, hexCharVal b with
    | some x, some y => (16 * x + y) :: hexDecodeChars rest
    | _, _ => []
  | _ => []

/-- Hex decoding of a string (`Buffer.from(hex, 'hex')`). -/
def hexDecode (s : String) : List Nat :=
  hexDecodeChars s.data

/-! ## UTF-8 (`Buffer.from(passphrase)`) -/

/-- UTF-8 encoding of one Unicode code point. -/
def utf8Enc (c : Nat) : List Nat :=
  if c < 128 then [c]
  else if c < 2048 then [192 + c / 64, 128 + c % 64]
  else if c < 65536 then [224 + c / 4096, 128 + (c / 64) % 64, 128 + c % 64]
  else [240 + c / 262144, 128 + (c / 4096) % 64, 128 + (c / 64) % 64, 128 + c % 64]

/-- UTF-8 bytes of a string (`Buffer.from(passphrase)`). -/
def strBytes (s : String) : List Nat :=
  (s.data.map (fun c => utf8Enc c.toNat)).flatten

/-! ## Key derivation (the `DogeApi` constructor)

The constructor reads
```
const pwHash = bitcoin.crypto.sha256(Buffer.from(passphrase))
this._keyPair = bitcoin.ECPair.fromPrivateKey(pwHash, { network })
this._address = bitcoin.payments.p2pkh({ pubkey: this._keyPair.publicKey, network }).address
```
`ECPair.fromPrivateKey` and `payments.p2pkh` are deterministic library
primitives external to this repository; they are abstracted as an `ECLib`
record of plain functions (secp256k1 public-key derivation and base58check
p2pkh address formation under the fixed network parameters). -/

/-- The deterministic elliptic-curve and address primitives of the external
`bitcoinjs-lib`, abstracted as plain functions. -/
structure ECLib where
  pubkeyOf : List Nat → List Nat
  p2pkhAddress : List Nat → String

/-- The wallet identity fields set by the constructor. -/
structure Wallet where
  privateKey : List Nat
  publicKey : List Nat
  address : String
deriving DecidableEq

/-- The `DogeApi` constructor: private key is SHA-256 of the raw passphrase
bytes, public key and p2pkh address are derived from it. -/
def walletInit (lib : ECLib) (passphrase : String) : Wallet :=
  let pwHash := sha256 (strBytes passphrase)
  { privateKey := pwHash
    publicKey := lib.pubkeyOf pwHash
    address := lib.p2pkhAddress (lib.pubkeyOf pwHash) }

/-! ## Transaction building (`createTransaction` / `_buildTransaction`) -/

/-- `const MULTIPLIER = 1e8`. -/
def MULTIPLIER : ℤ := 100000000

/-- `const TX_FEE = 1` (1 DOGE per transaction). -/
def TX_FEE : ℤ := 1

/-- An unspent output as returned by the ledger API: the source txid, the
output index it carries, and its value in whole coins. `_buildTransaction`
reads only `txid` and `amount`; `vout` is carried but never read. -/
structure Unspent where
  txid : String
  vout : Nat
  amount : ℚ
deriving DecidableEq

/-- `Math.floor(Number(amount) * MULTIPLIER)` in `createTransaction`:
whole coins to smallest units. -/
def toSat (amount : ℚ) : ℤ := ⌊amount * (MULTIPLIER : ℚ)⌋

/-- `Math.floor(tx.amount * MULTIPLIER)` in the selection loop. -/
def satOf (tx : Unspent) : ℤ := ⌊tx.amount * (MULTIPLIER : ℚ)⌋

/-- `const target = (amount + TX_FEE) * MULTIPLIER` in `_buildTransaction`,
where `amount` is the value the caller passed in. -/
def buildTarget (amount : ℤ) : ℤ := (amount + TX_FEE) * MULTIPLIER

/-- The target the specification describes for a send of `sendAmount` whole
coins: send amount plus the one-coin flat fee, each converted to the smallest
denomination exactly once. -/
def specTarget (sendAmount : ℚ) : ℤ := toSat sendAmount + TX_FEE * MULTIPLIER

/-- The `unspents.forEach` selection loop of `_buildTransaction`: walking the
list in order with running total `transferAmount` and input counter `inputs`,
an output is taken exactly when the running total is still below the target;
a taken output is recorded with the current counter value and its floored
amount is added to the total. Returns the taken outputs paired with their
assigned input indices, and the final running total. -/
def selectLoop (target : ℤ) : List Unspent → ℤ → Nat → List (Unspent × Nat) × ℤ
  | [], transferAmount, _ => ([], transferAmount)
  | tx :: rest, transferAmount, inputs =>
    if transferAmount < target then
      let r := selectLoop target rest (transferAmount + satOf tx) (inputs + 1)
      ((tx, inputs) :: r.1, r.2)
    else
      selectLoop target rest transferAmount inputs

/-- The structure of the transaction assembled by `_buildTransaction`:
the inputs added via `txb.addInput(tx.txid, inputs++)` and the outputs added
via `txb.addOutput` (destination and amount, in smallest units; the change
amount is a plain integer and may be negative). -/
structure BuiltTx where
  inputs : List (String × Nat)
  outputs : List (String × ℤ)
deriving DecidableEq

/-- `_buildTransaction(address, amount, unspents)` on a wallet whose own
address is `ownAddress`: computes the target, runs the selection loop from a
zero total and counter, then adds the send output `(address, amount)` and the
change output `(ownAddress, transferAmount - target)`. -/
def buildTransaction (ownAddress address : String) (amount : ℤ)
    (unspents : List Unspent) : BuiltTx :=
  let target := buildTarget amount
  let sel := selectLoop target unspents 0 0
  { inputs := sel.1.map (fun p => (p.1.txid, p.2))
    outputs := [(address, amount), (ownAddress, sel.2 - target)] }

/-- The selection-phase data of a build: the final running total
`transferAmount` reached by the loop. -/
def selectedTotal (target : ℤ) (unspents : List Unspent) : ℤ :=
  (selectLoop target unspents 0 0).2

/-- The sum of the output amounts of a built transaction. -/
def outputsSum (tx : BuiltTx) : ℤ :=
  (tx.outputs.map Prod.snd).sum

/-- `createTransaction`, transaction-construction part: converts the requested
whole-coin amount to smallest units with `Math.floor(Number(amount) *
MULTIPLIER)` and hands it to `_buildTransaction` together with the fetched
unspents. -/
def createTransactionBuild (ownAddress address : String) (amount : ℚ)
    (unspents : List Unspent) : BuiltTx :=
  buildTransaction ownAddress address (toSat amount) unspents

/-- The txid computation of `createTransaction`: double SHA-256 of the
hex-decoded raw bytes, hex-encoded, split into two-character groups, the
groups reversed and rejoined. -/
def createTxid (hex : String) : String :=
  let raw := hexDecode hex
  let h2 := sha256 (sha256 raw)
  String.mk ((chunkPairs (hexEncodeChars h2)).reverse.flatten)

/-! ## The endpoint client cache (`_getClient` / `_get`) -/

/-- An axios client as created by `axios.create({ baseURL: url })`. -/
structure AxiosClient where
  baseURL : String
deriving DecidableEq

/-- The value stored in `this._clients`: initially the empty object literal
`{ }`, read as a map from URL strings; after the faulty assignment
`this._clients = axios.create(...)` it is a bare client object. -/
inductive ClientsVal where
  | map (entries : List (String × AxiosClient))
  | client (c : AxiosClient)
deriving DecidableEq

/-- Property lookup `this._clients[url]`. On the map form this is ordinary
key lookup. On a bare axios client, an endpoint URL is not one of the
object's properties, so the access yields `undefined` (`none`). -/
def clientsIndex : ClientsVal → String → Option AxiosClient
  | .map entries, url => entries.lookup url
  | .client _, _ => none

/-- `_getClient()`: if `this._clients[url]` is falsy, the whole `_clients`
field is overwritten with the new client (`this._clients = axios.create...`),
and `this._clients[url]` is returned. Returns the updated field and the
returned value. -/
def getClient (st : ClientsVal) (url : String) : ClientsVal × Option AxiosClient :=
  let st' := if (clientsIndex st url).isSome then st
    else ClientsVal.client { baseURL := url }
  (st', clientsIndex st' url)

/-- Outcome of `_get`: either a thrown TypeError (calling `.get` on
`undefined`) before any request goes out, or an HTTP request issued through a
client with the given base URL. -/
inductive GetOutcome where
  | threw
  | requested (baseURL : String)
deriving DecidableEq

/-- `_get(url, params)` up to the request boundary:
`this._getClient().get(...)` throws if `_getClient` returned `undefined`,
otherwise issues the request on the returned client. -/
def doGet (st : ClientsVal) (endpointUrl : String) : ClientsVal × GetOutcome :=
  match getClient st endpointUrl with
  | (st', none) => (st', .threw)
  | (st', some c) => (st', .requested c.baseURL)

/-- The `_clients` field as set by the constructor: the empty object. -/
def freshClients : ClientsVal := .map []

/-! ## Helper lemmas about the selection loop -/

/-- The sum of the floored smallest-unit amounts of a selection. -/
def satSum (l : List (Unspent × Nat)) : ℤ :=
  (l.map (fun p => satOf p.1)).sum

/-- Position numbering of a list, starting at `n`. -/
def numberFrom (n : Nat) : List Unspent → List (Unspent × Nat)
  | [] => []
  | x :: xs => (x, n) :: numberFrom (n + 1) xs

/-- Replace the `vout` field of an unspent output. -/
def reVout (f : Unspent → Nat) (t : Unspent) : Unspent :=
  ⟨t.txid, f t, t.amount⟩

@[simp] theorem satOf_reVout (f : Unspent → Nat) (t : Unspent) :
    satOf (reVout f t) = satOf t := rfl

/-- Once the running total has reached the target, the loop takes nothing
further and leaves the total unchanged. -/
theorem selectLoop_stop (target : ℤ) (us : List Unspent) (acc : ℤ) (n : Nat)
    (h : ¬ acc < target) : selectLoop target us acc n = ([], acc) := by
  induction us generalizing n with
  | nil => rfl
  | cons tx rest ih => simp [selectLoop, h, ih]

/-- The final running total is the initial one plus the floored amounts of
the taken outputs. -/
theorem selectLoop_total (target : ℤ) (us : List Unspent) (acc : ℤ) (n : Nat) :
    (selectLoop target us acc n).2 = acc + satSum (selectLoop target us acc n).1 := by
  induction us generalizing acc n with
  | nil => simp [selectLoop, satSum]
  | cons tx rest ih =>
    by_cases h : acc < target
    · have := ih (acc + satOf tx) (n + 1)
      simp only [selectLoop, if_pos h, satSum, List.map_cons, List.sum_cons] at *
      omega
    · simp only [selectLoop, if_neg h]
      exact ih acc n

/-- Every output was taken while the running total was still below the
target: the initial total plus any proper partial sum of the selection is
below the target. -/
theorem selectLoop_below_target (target : ℤ) (us : List Unspent) (acc : ℤ) (n : Nat) :
    ∀ i < (selectLoop target us acc n).1.length,
      acc + satSum ((selectLoop target us acc n).1.take i) < target := by
  induction us generalizing acc n with
  | nil => simp [selectLoop]
  | cons tx rest ih =>
    by_cases h : acc < target
    · intro i hi
      simp only [selectLoop, if_pos h] at hi ⊢
      match i with
      | 0 => simpa [satSum]
      | j + 1 =>
        have hj := ih (acc + satOf tx) (n + 1) j (by simpa using hi)
        simp only [List.take_succ_cons, satSum, List.map_cons, List.sum_cons]
        simp only [satSum] at hj
        omega
    · simp [selectLoop_stop target (tx :: rest) acc n h]

/-- The selection is an initial segment of the supplied list, numbered with
consecutive counter values starting from the initial counter. -/
theorem selectLoop_take (target : ℤ) (us : List Unspent) (acc : ℤ) (n : Nat) :
    ∃ k, k ≤ us.length ∧ (selectLoop target us acc n).1 = numberFrom n (us.take k) := by
  induction us generalizing acc n with
  | nil => exact ⟨0, by simp [selectLoop, numberFrom]⟩
  | cons tx rest ih =>
    by_cases h : acc < target
    · obtain ⟨k, hk, he⟩ := ih (acc + satOf tx) (n + 1)
      exact ⟨k + 1, by simpa using hk, by simp [selectLoop, h, numberFrom, he]⟩
    · exact ⟨0, by simp [selectLoop_stop target (tx :: rest) acc n h, numberFrom]⟩

theorem numberFrom_length (n : Nat) (l : List Unspent) :
    (numberFrom n l).length = l.length := by
  induction l generalizing n with
  | nil => rfl
  | cons x xs ih => simp [numberFrom, ih]

theorem numberFrom_map_snd (n : Nat) (l : List Unspent) :
    (numberFrom n l).map Prod.snd = List.range' n l.length := by
  induction l generalizing n with
  | nil => rfl
  | cons x xs ih => simp [numberFrom, List.range'_succ, ih]

/-- The selection loop never reads the `vout` field: remapping it commutes
with selection, leaving the taken positions, counters, and total unchanged. -/
theorem selectLoop_reVout (target : ℤ) (f : Unspent → Nat) (us : List Unspent)
    (acc : ℤ) (n : Nat) :
    selectLoop target (us.map (reVout f)) acc n
      = ((selectLoop target us acc n).1.map (fun p => (reVout f p.1, p.2)),
         (selectLoop target us acc n).2) := by
  induction us generalizing acc n with
  | nil => simp [selectLoop]
  | cons tx rest ih =>
    by_cases h : acc < target
    · simp [selectLoop, h, ih]
    · simp [selectLoop, h, ih]

/-! ## Helper lemmas about the txid computation -/

theorem sha256_length (msg : List Nat) : (sha256 msg).length = 32 := by
  simp [sha256, wordBytes]

/-- Chunking the hex encoding into character pairs recovers exactly the
two-character encodings of the individual bytes. -/
theorem chunkPairs_hexEncodeChars (bs : List Nat) :
    chunkPairs (hexEncodeChars bs) = bs.map byteHexChars := by
  induction bs with
  | nil => rfl
  | cons b rest ih =>
    show chunkPairs (byteHexChars b ++ hexEncodeChars rest) = _
    simp only [byteHexChars, List.cons_append, List.nil_append, chunkPairs,
      List.map_cons]
    exact congrArg _ ih

/-- The partial sums of the two-character groups: the flattened reversed
group list has twice as many characters as there are bytes. -/
theorem hexEncodeChars_reverse_flatten_length (bs : List Nat) :
    ((bs.map byteHexChars).reverse.flatten).length = 2 * bs.length := by
  rw [List.length_flatten, ← List.map_reverse, List.map_map]
  have : (List.length ∘ byteHexChars) = fun _ => 2 := by
    funext b; rfl
  rw [this, List.map_const', List.sum_replicate, List.length_reverse]
  simp [Nat.mul_comm]

/-! ## The claims -/

/-- Claim C1: the specification says the selection target for a send of `a`
whole coins is `(a + FLAT_FEE) * 10^8` smallest units, each quantity
converted to the smallest denomination exactly once. The code disagrees:
`createTransaction` already converts the amount to smallest units, and
`_buildTransaction` then computes `(amount + TX_FEE) * MULTIPLIER` on the
converted value, scaling the send amount by `10^8` twice. For a 1-coin send
the code's target is 10000000100000000 smallest units, not the 200000000 the
specification requires. -/
theorem claimC1_target_double_converted :
    (∀ a : ℤ, buildTarget a = (a + 1) * 100000000)
    ∧ buildTarget (toSat 1) = 10000000100000000
    ∧ specTarget 1 = 200000000
    ∧ buildTarget (toSat 1) ≠ specTarget 1 := by
  have h1 : toSat 1 = 100000000 := by norm_num [toSat, MULTIPLIER]
  refine ⟨fun a => rfl, ?_, ?_, ?_⟩
  · rw [h1]; rfl
  · rw [specTarget, h1]; rfl
  · rw [specTarget, h1]; decide

/-- Claim C2: the specification requires that when the available outputs
cannot cover the target the build reports `InsufficientFunds` and produces no
transaction. The code has no such check: on unspents worth 0.5 coins and a
2-coin send it selects everything, the total stays below the target, and the
builder still assembles a transaction whose change output is the negative
number `total - target`, surfacing no insufficient-funds failure. -/
theorem claimC2_insufficient_funds_not_surfaced :
    buildTransaction "own" "dest" (toSat 2) [⟨"cc", 0, 1/2⟩]
      = { inputs := [("cc", 0)],
          outputs := [("dest", 200000000), ("own", -20000000050000000)] }
    ∧ selectedTotal (buildTarget (toSat 2)) [⟨"cc", 0, 1/2⟩]
        < buildTarget (toSat 2) := by
  have h2 : toSat 2 = 200000000 := by norm_num [toSat, MULTIPLIER]
  have hc : satOf ⟨"cc", 0, 1/2⟩ = 50000000 := by norm_num [satOf, MULTIPLIER]
  constructor
  · norm_num [buildTransaction, selectLoop, buildTarget, TX_FEE, MULTIPLIER, h2, hc]
  · norm_num [selectedTotal, selectLoop, buildTarget, TX_FEE, MULTIPLIER, h2, hc]

/-- Claim C3 fails as stated: a successful build's two outputs do not sum to
the selected input total `T`. Sending 0.00000001 coin (1 smallest unit)
against a single 3-coin output selects `T` = 300000000, the target is
`G` = 200000000, the change output is the non-negative 100000000 — a build
that succeeds by any reading — yet the outputs sum to 100000001, not `T`. -/
theorem claimC3_counterexample :
    let us : List Unspent := [⟨"ab", 0, 3⟩]
    let a := toSat (1 / 100000000)
    let r := buildTransaction "own" "dest" a us
    selectedTotal (buildTarget a) us = 300000000
    ∧ buildTarget a = 200000000
    ∧ r.outputs = [("dest", 1), ("own", 100000000)]
    ∧ outputsSum r = 100000001
    ∧ outputsSum r ≠ selectedTotal (buildTarget a) us := by
  have ha : toSat (1 / 100000000) = 1 := by norm_num [toSat, MULTIPLIER]
  have hb : satOf ⟨"ab", 0, 3⟩ = 300000000 := by norm_num [satOf, MULTIPLIER]
  refine ⟨?_, ?_, ?_, ?_, ?_⟩ <;>
    norm_num [selectedTotal, buildTransaction, outputsSum, selectLoop,
      buildTarget, TX_FEE, MULTIPLIER, ha, hb]

/-- Claim C3, amended: when the selection covers the target (`G ≤ T`), the
build produces exactly the send output of the requested `a` smallest units
and a change output of exactly `T - G ≥ 0`; the two outputs therefore sum to
`a + (T - G)` — `T` less the implied fee `G - a` — rather than to `T`. -/
theorem claimC3_amended (own dest : String) (a : ℤ) (us : List Unspent)
    (h : buildTarget a ≤ selectedTotal (buildTarget a) us) :
    (buildTransaction own dest a us).outputs
        = [(dest, a), (own, selectedTotal (buildTarget a) us - buildTarget a)]
    ∧ outputsSum (buildTransaction own dest a us)
        = a + (selectedTotal (buildTarget a) us - buildTarget a)
    ∧ 0 ≤ selectedTotal (buildTarget a) us - buildTarget a := by
  refine ⟨rfl, ?_, by omega⟩
  simp [buildTransaction, outputsSum, selectedTotal]

/-- Witness for the amended claim C3: a send of 0 coins against a single
2-coin output covers the target 100000000 with total 200000000, and the
amended claim holds there. -/
theorem claimC3_amended_witness :
    (buildTransaction "own" "dest" 0 [⟨"ab", 0, 2⟩]).outputs
        = [("dest", 0),
           ("own", selectedTotal (buildTarget 0) [⟨"ab", 0, 2⟩] - buildTarget 0)]
    ∧ outputsSum (buildTransaction "own" "dest" 0 [⟨"ab", 0, 2⟩])
        = 0 + (selectedTotal (buildTarget 0) [⟨"ab", 0, 2⟩] - buildTarget 0)
    ∧ 0 ≤ selectedTotal (buildTarget 0) [⟨"ab", 0, 2⟩] - buildTarget 0 :=
  claimC3_amended "own" "dest" 0 [⟨"ab", 0, 2⟩] (by
    have hb : satOf ⟨"ab", 0, 2⟩ = 200000000 := by norm_num [satOf, MULTIPLIER]
    norm_num [selectedTotal, selectLoop, buildTarget, TX_FEE, MULTIPLIER, hb])

/-- Claim C4: on the specification's end-to-end example — one 5-coin unspent
output with a 64-character txid and a request to send 1 coin — the code does
select that single output and does emit one input and two outputs, but the
outputs are not the promised pair of 100000000 and 400000000 smallest units:
because the converted amount is scaled by `10^8` a second time in the target,
the change output is -9999999600000000. -/
theorem claimC4_example_diverges :
    (createTransactionBuild "own" "dest" 1
        [⟨"aaaaaaaaaaaaaaaaaaaaaaaaaaaaaaaaaaaaaaaaaaaaaaaaaaaaaaaaaaaaaaaa",
          0, 5⟩]).inputs
      = [("aaaaaaaaaaaaaaaaaaaaaaaaaaaaaaaaaaaaaaaaaaaaaaaaaaaaaaaaaaaaaaaa", 0)]
    ∧ (createTransactionBuild "own" "dest" 1
        [⟨"aaaaaaaaaaaaaaaaaaaaaaaaaaaaaaaaaaaaaaaaaaaaaaaaaaaaaaaaaaaaaaaa",
          0, 5⟩]).outputs
      = [("dest", 100000000), ("own", -9999999600000000)]
    ∧ (createTransactionBuild "own" "dest" 1
        [⟨"aaaaaaaaaaaaaaaaaaaaaaaaaaaaaaaaaaaaaaaaaaaaaaaaaaaaaaaaaaaaaaaa",
          0, 5⟩]).outputs
      ≠ [("dest", 100000000), ("own", 400000000)] := by
  have h1 : toSat 1 = 100000000 := by norm_num [toSat, MULTIPLIER]
  have h5 : satOf
      ⟨"aaaaaaaaaaaaaaaaaaaaaaaaaaaaaaaaaaaaaaaaaaaaaaaaaaaaaaaaaaaaaaaa",
        0, 5⟩ = 500000000 := by norm_num [satOf, MULTIPLIER]
  refine ⟨?_, ?_, ?_⟩ <;>
    norm_num [createTransactionBuild, buildTransaction, selectLoop,
      buildTarget, TX_FEE, MULTIPLIER, h1, h5]

/-- Claim C5: the selection loop accumulates outputs in the supplied order
and stops contributing once the running total reaches the target. The final
total is the sum of the taken outputs; every output was taken while the
partial sum before it was still below the target (so nothing is added once
the total is at or above it); and whenever the final total reaches the
target, dropping the last-added output leaves a total below the target. -/
theorem claimC5_greedy_selection (target : ℤ) (us : List Unspent) :
    (selectLoop target us 0 0).2 = satSum (selectLoop target us 0 0).1
    ∧ (∀ i < (selectLoop target us 0 0).1.length,
        satSum ((selectLoop target us 0 0).1.take i) < target)
    ∧ (target ≤ (selectLoop target us 0 0).2 → (selectLoop target us 0 0).1 ≠ [] →
        satSum ((selectLoop target us 0 0).1.dropLast) < target) := by
  have htot := selectLoop_total target us 0 0
  have hpart := selectLoop_below_target target us 0 0
  refine ⟨by simpa using htot, fun i hi => by simpa using hpart i hi, ?_⟩
  intro _ hne
  have hlen : (selectLoop target us 0 0).1.length - 1
      < (selectLoop target us 0 0).1.length := by
    have := List.length_pos.mpr hne
    omega
  have := hpart _ hlen
  rw [List.dropLast_eq_take]
  simpa using this

/-- Witness for claim C5 at a concrete input: with target 200000000 and a
single 3-coin output the selection takes that output, the total 300000000
reaches the target, and dropping the last-added output leaves 0 < target. -/
theorem claimC5_greedy_selection_witness :
    satSum ((selectLoop 200000000 [⟨"aa", 0, 3⟩] 0 0).1.dropLast) < 200000000 :=
  (claimC5_greedy_selection 200000000 [⟨"aa", 0, 3⟩]).2.2
    (by norm_num [selectLoop, satOf, MULTIPLIER])
    (by norm_num [selectLoop, satOf, MULTIPLIER])

/-- Claim C6: on a fresh instance (the constructor sets `_clients = { }`),
`_getClient` overwrites the whole `_clients` field with the newly created
axios client instead of storing it under the URL key, and then returns
`this._clients[url]`, which on the bare client object is `undefined`; the
first `_get` therefore throws before issuing any request. -/
theorem claimC6_fresh_client_lookup_fails (url : String) :
    getClient freshClients url = (ClientsVal.client ⟨url⟩, none)
    ∧ doGet freshClients url = (ClientsVal.client ⟨url⟩, GetOutcome.threw) := by
  have h : getClient freshClients url = (ClientsVal.client ⟨url⟩, none) := by
    simp [getClient, freshClients, clientsIndex]
  exact ⟨h, by simp [doGet, h]⟩

/-- Claim C7: key derivation is deterministic — two constructor runs with the
same passphrase (under the same deterministic curve/address primitives and
the fixed network parameters) produce byte-identical private keys, public
keys, and the same address string; the derivation is a pure function of the
passphrase. -/
theorem claimC7_derivation_deterministic (lib : ECLib) (p q : String)
    (h : p = q) :
    walletInit lib p = walletInit lib q
    ∧ (walletInit lib p).privateKey = (walletInit lib q).privateKey
    ∧ (walletInit lib p).publicKey = (walletInit lib q).publicKey
    ∧ (walletInit lib p).address = (walletInit lib q).address := by
  subst h
  exact ⟨rfl, rfl, rfl, rfl⟩

/-- Witness for claim C7: two derivations from the passphrase `"test"`
agree. -/
theorem claimC7_derivation_deterministic_witness :
    walletInit ⟨id, fun _ => "A"⟩ "test" = walletInit ⟨id, fun _ => "A"⟩ "test"
    ∧ (walletInit ⟨id, fun _ => "A"⟩ "test").privateKey
        = (walletInit ⟨id, fun _ => "A"⟩ "test").privateKey
    ∧ (walletInit ⟨id, fun _ => "A"⟩ "test").publicKey
        = (walletInit ⟨id, fun _ => "A"⟩ "test").publicKey
    ∧ (walletInit ⟨id, fun _ => "A"⟩ "test").address
        = (walletInit ⟨id, fun _ => "A"⟩ "test").address :=
  claimC7_derivation_deterministic ⟨id, fun _ => "A"⟩ "test" "test" rfl

/-- Claim C8: the wallet's private key is the single-pass SHA-256 of the raw
passphrase bytes — no salt, no iteration, no stretching; concretely, for the
passphrase `"test"` the private key is the standard SHA-256 digest
9f86d081884c7d659a2feaa0c55ad015a3bf4f1b2b0b822cd15d6c15b0f00a08. -/
theorem claimC8_private_key_single_sha256 :
    (∀ (lib : ECLib) (p : String),
        (walletInit lib p).privateKey = sha256 (strBytes p))
    ∧ (walletInit ⟨id, fun _ => "A"⟩ "test").privateKey
        = [0x9f, 0x86, 0xd0, 0x81, 0x88, 0x4c, 0x7d, 0x65, 0x9a, 0x2f, 0xea,
           0xa0, 0xc5, 0x5a, 0xd0, 0x15, 0xa3, 0xbf, 0x4f, 0x1b, 0x2b, 0x0b,
           0x82, 0x2c, 0xd1, 0x5d, 0x6c, 0x15, 0xb0, 0xf0, 0x0a, 0x08] :=
  ⟨fun _ _ => rfl, by decide⟩

/-- Claim C9: the txid accompanying a serialized transaction hex is computed
by double SHA-256 of the raw bytes with the 32 digest bytes reversed before
hex encoding, and is always 64 hex characters long. -/
theorem claimC9_txid_reversed_double_sha256 (hex : String) :
    createTxid hex = hexEncode ((sha256 (sha256 (hexDecode hex))).reverse)
    ∧ (createTxid hex).length = 64 := by
  constructor
  · rw [show createTxid hex
        = String.mk ((chunkPairs (hexEncodeChars
            (sha256 (sha256 (hexDecode hex))))).reverse.flatten) from rfl]
    rw [chunkPairs_hexEncodeChars]
    unfold hexEncode hexEncodeChars
    rw [List.map_reverse]
  · simp only [createTxid, String.length_mk, chunkPairs_hexEncodeChars]
    rw [hexEncodeChars_reverse_flatten_length, sha256_length]

/-- Claim C10: the selected inputs form an initial segment of the supplied
unspents list numbered consecutively from zero, the i-th selected input is
added with previous-output index exactly i, and the selection and built
transaction are unchanged by any reassignment of the `vout` index
information carried by the unspent outputs themselves. -/
theorem claimC10_sequential_input_indices (target : ℤ) (us : List Unspent) :
    (∃ k, k ≤ us.length ∧ (selectLoop target us 0 0).1 = numberFrom 0 (us.take k))
    ∧ (selectLoop target us 0 0).1.map Prod.snd
        = List.range (selectLoop target us 0 0).1.length
    ∧ ∀ (own dest : String) (a : ℤ) (f : Unspent → Nat),
        buildTransaction own dest a (us.map (reVout f))
          = buildTransaction own dest a us := by
  refine ⟨selectLoop_take target us 0 0, ?_, ?_⟩
  · obtain ⟨k, hk, he⟩ := selectLoop_take target us 0 0
    rw [he, numberFrom_map_snd, numberFrom_length, List.range_eq_range']
  · intro own dest a f
    simp [buildTransaction, selectLoop_reVout, reVout, List.map_map,
      Function.comp]

end DogeApi
